import Mathlib

/-!
# dishook: URL validation, content building and request dispatch

A shallow embedding of `cmd/root.go` and `cmd/edit.go`.

Modelling conventions.

* A Go `string` is a Lean `String` (the text is taken to be valid UTF-8); its Go
  length `len(s)` is the number of bytes of its UTF-8 encoding (`len`), and a Go
  slice expression `s[lo:hi]` works on those bytes (`slice`).
* Go code can return, call `os.Exit`, or panic: `Outcome`.
* What the process does to the outside world (text printed, HTTP calls made through
  the `requests` library) is recorded as a list of `Event`s: `Run`.
* What the outside world answers (the result of `requests.Get`, the rendering of the
  coloured `ERROR:` tag, the `execute` function of a file that is not part of the
  embedding) is a parameter.
-/

namespace Dishook

/-! ## Go runtime -/

/-- How a piece of Go code ends: a normal return with a value, a call of `os.Exit`,
or a run-time panic (which ends the process with status 2). -/
inductive Outcome (α : Type) where
  | ok (a : α)
  | exit (code : Int)
  | panic (msg : String)
deriving DecidableEq

/-- Sequencing of Go statements that produce no outside effect. -/
def Outcome.bind {α β : Type} (o : Outcome α) (f : α → Outcome β) : Outcome β :=
  match o with
  | .ok a => f a
  | .exit c => .exit c
  | .panic m => .panic m

/-- The bytes of the UTF-8 encoding of one character. -/
def utf8Char (c : Char) : List Nat :=
  let v := c.toNat
  if v ≤ 0x7f then [v]
  else if v ≤ 0x7ff then [0xc0 + v / 64, 0x80 + v % 64]
  else if v ≤ 0xffff then [0xe0 + v / 4096, 0x80 + (v / 64) % 64, 0x80 + v % 64]
  else [0xf0 + v / 262144, 0x80 + (v / 4096) % 64, 0x80 + (v / 64) % 64, 0x80 + v % 64]

/-- The bytes of a Go string. -/
def bytes (s : String) : List Nat :=
  s.data.flatMap utf8Char

/-- Go `len(s)` for a string: its number of bytes. -/
def len (s : String) : Nat :=
  (bytes s).length

/-- Go `s[lo:hi]` on a string, as bytes; out-of-range bounds panic. -/
def slice (s : String) (lo hi : Nat) : Outcome (List Nat) :=
  if lo ≤ hi ∧ hi ≤ len s then .ok (((bytes s).drop lo).take (hi - lo))
  else .panic "runtime error: slice bounds out of range"

/-- Go `args[i]` on a slice of strings with an `int` index; an index out of range
panics. -/
def index (args : List String) (i : Int) : Outcome String :=
  if i < 0 then .panic "runtime error: index out of range"
  else
    match args[i.toNat]? with
    | some a => .ok a
    | none => .panic "runtime error: index out of range"

/-- Go `strings.HasPrefix(s, p)`: the bytes of `s` start with the bytes of `p`. -/
def HasPrefix (s p : String) : Prop :=
  bytes p <+: bytes s

instance (s p : String) : Decidable (HasPrefix s p) := by
  unfold HasPrefix; infer_instance

/-! ## Standard library functions used by the program -/

/-- Go `unicode.IsSpace`: the Unicode White_Space property. -/
def isSpace (c : Char) : Bool :=
  let v := c.toNat
  v = 0x09 || v = 0x0a || v = 0x0b || v = 0x0c || v = 0x0d || v = 0x20 ||
  v = 0x85 || v = 0xa0 || v = 0x1680 || (0x2000 ≤ v && v ≤ 0x200a) ||
  v = 0x2028 || v = 0x2029 || v = 0x202f || v = 0x205f || v = 0x3000

/-- Go `strings.TrimSpace`: all leading and trailing white space removed. -/
def TrimSpace (s : String) : String :=
  ⟨(s.data.dropWhile isSpace).rdropWhile isSpace⟩

/-- Go `fmt.Sprintf("%s %s", a, b)`. -/
def Sprintf_s_s (a b : String) : String :=
  a ++ " " ++ b

/-- Go `strings.Join(elems, sep)`: the elements with `sep` between consecutive
ones. This is the reference the result of `merge_strings` is compared with. -/
def Join : List String → String → String
  | [], _ => ""
  | [a], _ => a
  | a :: b :: rest, sep => a ++ sep ++ Join (b :: rest) sep

/-! ## `merge_strings` (root.go) -/

/-- The loop `for i := arg_pos; i < len(args); i++ { str = Sprintf("%s %s", str, args[i]) }`
started at index `i` with accumulator `str`. The first argument bounds the number of
iterations; `merge_strings` passes the exact number of iterations left. -/
def merge_loop (args : List String) : Nat → Int → String → Outcome String
  | 0, _, str => .ok str
  | n + 1, i, str =>
    if i < (args.length : Int) then
      (index args i).bind fun a => merge_loop args n (i + 1) (Sprintf_s_s str a)
    else .ok str

/-- The function `merge_strings(args []string, arg_pos int) string`. -/
def merge_strings (args : List String) (arg_pos : Int) : Outcome String :=
  (merge_loop args ((args.length : Int) - arg_pos).toNat arg_pos "").bind fun str =>
    .ok (TrimSpace str)

/-- Every element of the list preceded by one space: the value of `str` after the
loop of `merge_strings` has gone through the list. -/
def spaced : List String → String
  | [] => ""
  | a :: rest => " " ++ a ++ spaced rest

/-- The Go slice `args[arg_pos:]` for `0 ≤ arg_pos ≤ len(args)`. -/
def argsFrom (args : List String) (arg_pos : Int) : List String :=
  args.drop arg_pos.toNat

/-- A string that is not empty and neither starts nor ends with white space. -/
def Tidy (s : String) : Prop :=
  s.data ≠ [] ∧ (∀ c, s.data.head? = some c → isSpace c = false) ∧
    (∀ c, s.data.getLast? = some c → isSpace c = false)

/-! ## The outside world -/

/-- One interaction of the process with the outside world: text written to standard
output or standard error, or one call of the `requests` library (`Get`, `Post`, `Patch`).
For `Post` and `Patch` the body handed over is the JSON encoding of `payload`. -/
inductive Event where
  | stdout (text : String)
  | stderr (text : String)
  | get (url : String)
  | post (url contentType : String) (payload : List (String × String))
  | patch (url contentType : String) (payload : List (String × String))
deriving DecidableEq

/-- A run of a piece of Go code: the interactions it had, in order, and how it ended. -/
structure Run (α : Type) where
  trace : List Event
  out : Outcome α
deriving DecidableEq

/-- A statement with no outside effect. -/
def Run.lift {α : Type} (o : Outcome α) : Run α :=
  ⟨[], o⟩

/-- Sequencing of Go statements: the second does not run when the first one exits
or panics. -/
def Run.bind {α β : Type} (r : Run α) (f : α → Run β) : Run β :=
  match r.out with
  | .ok a => ⟨r.trace ++ (f a).trace, (f a).out⟩
  | .exit c => ⟨r.trace, .exit c⟩
  | .panic m => ⟨r.trace, .panic m⟩

instance : Monad Run where
  pure a := Run.lift (.ok a)
  bind := Run.bind

/-- One interaction, then carry on. -/
def emit (e : Event) : Run Unit :=
  ⟨[e], .ok ()⟩

/-- Go `os.Exit(code)`. -/
def os_Exit {α : Type} (code : Int) : Run α :=
  ⟨[], .exit code⟩

/-- Go `fmt.Printf` once the format has been filled in. -/
def fmt_Printf (text : String) : Run Unit :=
  emit (.stdout text)

/-- The line `log` writes: a newline is added when the text does not end with one. -/
def logLine (text : String) : String :=
  if text.data.getLast? = some '\n' then text else text ++ "\n"

/-- Go `log.Fatal(v)` with the flags cleared by `log.SetFlags(0)`: the text goes to
standard error and the process ends through `os.Exit(1)`. -/
def log_Fatal {α : Type} (text : String) : Run α :=
  ⟨[.stderr (logLine text)], .exit 1⟩

/-- The `*requests.Response` fields the program reads. -/
structure Response where
  StatusCode : Int
deriving DecidableEq

/-- The pair `(*Response, error)` returned by `requests.Get`; `none` is `nil`. -/
structure GetResult where
  resp : Option Response
  err : Option String
deriving DecidableEq

/-- What the program does not control: the answer to a GET of a URL, and how the
`color` package renders a red text (with or without escape codes). -/
structure Env where
  get : String → GetResult
  red : String → String

/-- Go `requests.Get(url)`. -/
def requests_Get (env : Env) (url : String) : Run GetResult :=
  ⟨[.get url], .ok (env.get url)⟩

/-- Go `url_r.StatusCode` on a `*Response`: reading a field through a nil pointer
panics. -/
def statusCode (url_r : Option Response) : Outcome Int :=
  match url_r with
  | some r => .ok r.StatusCode
  | none => .panic "runtime error: invalid memory address or nil pointer dereference"

/-! ## `request_HTTP`, `is_token_valid`, `ManageError` (root.go) -/

/-- The function `request_HTTP(http_method, URL, json_map)`: the `switch` has a case
for "POST" and one for "PATCH" and no default. -/
def request_HTTP (http_method URL : String) (json_map : List (String × String)) : Run Unit :=
  if http_method = "POST" then emit (.post URL "application/json" json_map)
  else if http_method = "PATCH" then emit (.patch URL "application/json" json_map)
  else pure ()

/-- The literal that `is_token_valid` compares the first 33 bytes of the URL with. -/
def webhookPrefix : String :=
  "https://discord.com/api/webhooks/"

/-- The function `is_token_valid(url string) bool`. -/
def is_token_valid (env : Env) (url : String) : Run Bool :=
  (Run.lift (slice url 0 33)).bind fun head =>
    if head = bytes webhookPrefix then
      (requests_Get env url).bind fun r =>
        (Run.lift (statusCode r.resp)).bind fun url_code =>
          if url_code ≠ 401 ∨ r.err ≠ none then pure true
          else pure false
    else pure false

/-- The function `ManageError(err error)`; an `error` is its message, `nil` is `none`. -/
def ManageError (env : Env) (err : Option String) : Run Unit :=
  match err with
  | some e => log_Fatal (Sprintf_s_s (env.red "ERROR:") e)
  | none => pure ()

/-- The `RunE` function of `root_cmd`. The function `execute` lives in a file that is
not part of this embedding and is a parameter. -/
def root_RunE (env : Env) (execute : List String → Run (Option String))
    (args : List String) : Run (Option String) :=
  (Run.lift (index args 0)).bind fun url =>
    (is_token_valid env url).bind fun valid =>
      (if !valid then
        (Run.lift (index args 0)).bind fun a0 =>
          ManageError env (some ("'" ++ a0 ++ "' not a valid webhook token"))
       else pure ()).bind fun _ =>
        (execute args).bind fun err =>
          (ManageError env err).bind fun _ =>
            pure none

/-! ## The `edit` command (edit.go) -/

/-- The loop `for i := 0; i < len(flags); i++` of `edit_cmd.Run` over the flags still
to be looked at. -/
def edit_flags_loop (message url : String) : List String → Run Unit
  | [] => pure ()
  | flag :: rest =>
    if len flag ≠ 0 then
      (if len message = 0 then
        (fmt_Printf "ERROR: Message flag required.").bind fun _ => os_Exit 0
       else pure ()).bind fun _ =>
        (request_HTTP "PATCH" url [("content", message)]).bind fun _ =>
          edit_flags_loop message url rest
    else edit_flags_loop message url rest

/-- The URL `fmt.Sprintf("%s/messages/%s", args[0], args[1])` the edit command works on. -/
def edit_url (a0 a1 : String) : String :=
  a0 ++ "/messages/" ++ a1

/-- The `Run` function of `edit_cmd`; `message` is the value of the message flag. -/
def edit_Run (env : Env) (message : String) (args : List String) : Run Unit :=
  (Run.lift (index args 0)).bind fun a0 =>
    (Run.lift (index args 1)).bind fun a1 =>
      let url := edit_url a0 a1
      (is_token_valid env url).bind fun valid =>
        (if !valid then
          fmt_Printf ("ERROR: '" ++ a0 ++ "' is not a valid webhook token.")
         else pure ()).bind fun _ =>
          (edit_flags_loop message url [message]).bind fun _ =>
            (Run.lift (merge_strings args 2)).bind fun content =>
              request_HTTP "PATCH" url [("content", content)]

/-! ## Concrete surroundings used in the examples -/

/-- A network on which every GET is answered with status `code` and no error. -/
def envStatus (code : Int) : Env :=
  ⟨fun _ => ⟨some ⟨code⟩, none⟩, fun s => s⟩

/-- A network on which every GET fails: no response, a transport error. -/
def envDown : Env :=
  ⟨fun _ => ⟨none, some "dial tcp: lookup discord.com: no such host"⟩, fun s => s⟩

/-- An `execute` that does nothing and reports no error. -/
def executeNone : List String → Run (Option String) :=
  fun _ => pure none

/-- A URL of the kind the root command is given when it is not a webhook: long enough
to be sliced, but with another beginning. -/
def urlOther : String :=
  "http://example.com/not-a-discord-webhook"

/-- A URL that begins like a Discord webhook. -/
def urlHook : String :=
  "https://discord.com/api/webhooks/1/x"

/-! ## Notions used in the statements -/

/-- The event is a request sent by `request_HTTP` (a `Post` or a `Patch`); the probe
`Get` of `is_token_valid` is not one. -/
def isDispatch : Event → Bool
  | .post _ _ _ => true
  | .patch _ _ _ => true
  | _ => false

/-- The URL is refused by `is_token_valid` without a run-time failure: it is at least
33 bytes long and either does not begin with the webhook literal, or the probe comes
back with status 401 and no error. -/
def Refused (env : Env) (url : String) : Prop :=
  33 ≤ len url ∧ (¬ HasPrefix url webhookPrefix ∨ env.get url = ⟨some ⟨401⟩, none⟩)

/-- What `requests.Get` hands back, as `net/http` does: when there is an error there is
no response. -/
def GetContract (r : GetResult) : Prop :=
  r.err ≠ none → r.resp = none

/-- The `Get` calls `is_token_valid` makes on a URL of at least 33 bytes: one when the
URL begins with the webhook literal, none otherwise. -/
def probeOf (url : String) : List Event :=
  if HasPrefix url webhookPrefix then [.get url] else []

/-! ## Lemmas on strings and lists -/

theorem index_natCast (args : List String) (k : Nat) (h : k < args.length) :
    index args (k : Int) = .ok (args[k]) := by
  have h0 : ¬ ((k : Int) < 0) := by omega
  simp [index, h0, List.getElem?_eq_getElem h]

/-- The loop returns as soon as the bound on the iterations is at least the number of
elements left, and the bound has then no influence on the result. -/
theorem merge_loop_eq (args : List String) :
    ∀ (n k : Nat) (str : String), args.length ≤ k + n →
      merge_loop args n (k : Int) str = .ok (str ++ spaced (args.drop k)) := by
  intro n
  induction n with
  | zero =>
    intro k str h
    have hk : args.drop k = [] := List.drop_eq_nil_of_le (by omega)
    simp [merge_loop, hk, spaced]
  | succ n ih =>
    intro k str h
    by_cases hk : k < args.length
    · have hlt : (k : Int) < (args.length : Int) := by omega
      have hd : args.drop k = args[k] :: args.drop (k + 1) := List.drop_eq_getElem_cons hk
      have hnext := ih (k + 1) (Sprintf_s_s str args[k]) (by omega)
      simp only [merge_loop, hlt, if_true, index_natCast args k hk, Outcome.bind]
      rw [show ((k : Int) + 1) = ((k + 1 : Nat) : Int) by push_cast; rfl, hnext, hd]
      simp [spaced, Sprintf_s_s, String.append_assoc]
    · have hge : ¬ ((k : Int) < (args.length : Int)) := by omega
      have hnil : args.drop k = [] := List.drop_eq_nil_of_le (by omega)
      simp [merge_loop, hge, hnil, spaced]

theorem spaced_eq_join : ∀ (l : List String), l ≠ [] → spaced l = " " ++ Join l " "
  | [], h => absurd rfl h
  | [a], _ => by simp [spaced, Join]
  | a :: b :: rest, _ => by
    have ih := spaced_eq_join (b :: rest) (by simp)
    rw [spaced, ih]
    simp [Join, String.append_assoc]

theorem TrimSpace_empty : TrimSpace "" = "" := by
  decide

theorem TrimSpace_space_append (s : String) : TrimSpace (" " ++ s) = TrimSpace s := by
  have h : isSpace ' ' = true := by decide
  simp [TrimSpace, List.dropWhile_cons, h]

theorem TrimSpace_spaced (l : List String) : TrimSpace (spaced l) = TrimSpace (Join l " ") := by
  cases l with
  | nil => simp [spaced, Join]
  | cons a rest => rw [spaced_eq_join (a :: rest) (by simp), TrimSpace_space_append]

theorem trim_chars_self (l : List Char)
    (hfirst : ∀ c, l.head? = some c → isSpace c = false)
    (hlast : ∀ c, l.getLast? = some c → isSpace c = false) :
    (l.dropWhile isSpace).rdropWhile isSpace = l := by
  have h1 : l.dropWhile isSpace = l := by
    cases l with
    | nil => rfl
    | cons c t => simp [List.dropWhile_cons, hfirst c rfl]
  rw [h1, List.rdropWhile_eq_self_iff]
  intro hl
  have := hlast (l.getLast hl) (List.getLast?_eq_getLast l hl)
  simp [this]

theorem Join_data_head (sep a : String) (rest : List String) :
    ∃ t, (Join (a :: rest) sep).data = a.data ++ t := by
  cases rest with
  | nil => exact ⟨[], by simp [Join]⟩
  | cons b r => exact ⟨sep.data ++ (Join (b :: r) sep).data, by simp [Join]⟩

theorem Join_data_last (sep : String) :
    ∀ (l : List String) (h : l ≠ []), ∃ t, (Join l sep).data = t ++ (l.getLast h).data
  | [], h => absurd rfl h
  | [a], _ => ⟨[], by simp [Join]⟩
  | a :: b :: rest, _ => by
    obtain ⟨t, ht⟩ := Join_data_last sep (b :: rest) (by simp)
    refine ⟨a.data ++ sep.data ++ t, ?_⟩
    simp [Join, ht]

theorem TrimSpace_Join_tidy (l : List String) (h : ∀ a ∈ l, Tidy a) :
    TrimSpace (Join l " ") = Join l " " := by
  cases l with
  | nil => simp [Join, TrimSpace_empty]
  | cons a rest =>
    have hne : (a :: rest) ≠ [] := by simp
    obtain ⟨t, ht⟩ := Join_data_head " " a rest
    obtain ⟨u, hu⟩ := Join_data_last " " (a :: rest) hne
    have ha := h a (by simp)
    have hb := h ((a :: rest).getLast hne) (List.getLast_mem hne)
    have key : ((Join (a :: rest) " ").data.dropWhile isSpace).rdropWhile isSpace =
        (Join (a :: rest) " ").data := by
      apply trim_chars_self
      · intro c hc
        rw [ht] at hc
        apply ha.2.1 c
        obtain ⟨x, xs, hx⟩ := List.exists_cons_of_ne_nil ha.1
        rw [hx] at hc ⊢
        simpa using hc
      · intro c hc
        rw [hu] at hc
        apply hb.2.2 c
        rw [List.getLast?_append_of_ne_nil _ hb.1] at hc
        exact hc
    unfold TrimSpace
    rw [key]

theorem merge_strings_natCast (args : List String) (k : Nat) (h : k ≤ args.length) :
    merge_strings args (k : Int) = .ok (TrimSpace (Join (args.drop k) " ")) := by
  have hfuel : ((args.length : Int) - (k : Int)).toNat = args.length - k := by omega
  have hloop := merge_loop_eq args (args.length - k) k "" (by omega)
  simp only [merge_strings, hfuel, hloop, Outcome.bind]
  rw [String.empty_append, TrimSpace_spaced]

/-! ## Claims about `merge_strings` -/

/-- C2: for `0 ≤ arg_pos ≤ len(args)`, `merge_strings(args, arg_pos)` returns the elements
`args[arg_pos:]` joined with exactly one space between consecutive elements, with leading
and trailing white space removed; and when no element of `args[arg_pos:]` is empty or
starts or ends with white space, it returns exactly that join. -/
theorem merge_strings_eq_trimmed_join (args : List String) (arg_pos : Int)
    (h0 : 0 ≤ arg_pos) (h1 : arg_pos ≤ (args.length : Int)) :
    merge_strings args arg_pos = .ok (TrimSpace (Join (argsFrom args arg_pos) " ")) ∧
    ((∀ a ∈ argsFrom args arg_pos, Tidy a) →
      merge_strings args arg_pos = .ok (Join (argsFrom args arg_pos) " ")) := by
  obtain ⟨k, rfl⟩ := Int.eq_ofNat_of_zero_le h0
  have hk : k ≤ args.length := by omega
  have hmain := merge_strings_natCast args k hk
  refine ⟨by simpa [argsFrom] using hmain, ?_⟩
  intro htidy
  have : TrimSpace (Join (args.drop k) " ") = Join (args.drop k) " " :=
    TrimSpace_Join_tidy _ (by simpa [argsFrom] using htidy)
  simpa [argsFrom, this] using hmain

theorem merge_strings_eq_trimmed_join_witness :
    merge_strings ["url", "id", "hello", "world"] 2 =
      .ok (TrimSpace (Join (argsFrom ["url", "id", "hello", "world"] 2) " ")) ∧
    merge_strings ["url", "id", "hello", "world"] 2 =
      .ok (Join (argsFrom ["url", "id", "hello", "world"] 2) " ") :=
  ⟨(merge_strings_eq_trimmed_join ["url", "id", "hello", "world"] 2 (by decide) (by decide)).1,
    (merge_strings_eq_trimmed_join ["url", "id", "hello", "world"] 2 (by decide) (by decide)).2
      (by
        intro a ha
        have h : a = "hello" ∨ a = "world" := by simpa [argsFrom] using ha
        rcases h with rfl | rfl
        · exact ⟨by decide, by intro c hc; cases hc; decide, by intro c hc; cases hc; decide⟩
        · exact ⟨by decide, by intro c hc; cases hc; decide, by intro c hc; cases hc; decide⟩)⟩

/-- C3 (as the code has it): with `args = ["url","msg","id","hello","world"]` the element at
index 2 is "id", so `merge_strings(args, 2)` returns "id hello world"; it is
`merge_strings(args, 3)` that returns "hello world". -/
theorem merge_strings_example :
    merge_strings ["url", "msg", "id", "hello", "world"] 2 = .ok "id hello world" ∧
    merge_strings ["url", "msg", "id", "hello", "world"] 3 = .ok "hello world" := by
  decide

/-- C3, counterexample: `merge_strings(["url","msg","id","hello","world"], 2)` does not
return "hello world". -/
theorem merge_strings_example_not_hello_world :
    merge_strings ["url", "msg", "id", "hello", "world"] 2 ≠ .ok "hello world" := by
  decide

/-- C4: `merge_strings(args, len(args))` returns the empty string, and so does
`merge_strings(args, arg_pos)` for every `arg_pos ≥ len(args)`. -/
theorem merge_strings_past_end (args : List String) :
    merge_strings args (args.length : Int) = .ok "" ∧
    ∀ arg_pos : Int, (args.length : Int) ≤ arg_pos → merge_strings args arg_pos = .ok "" := by
  have h : ∀ arg_pos : Int, (args.length : Int) ≤ arg_pos →
      merge_strings args arg_pos = .ok "" := by
    intro arg_pos hp
    have hfuel : ((args.length : Int) - arg_pos).toNat = 0 := by omega
    simp [merge_strings, hfuel, merge_loop, Outcome.bind, TrimSpace_empty]
  exact ⟨h _ (le_refl _), h⟩

theorem merge_strings_past_end_witness :
    merge_strings ["url", "msg"] 2 = .ok "" ∧ merge_strings ["url", "msg"] 5 = .ok "" :=
  ⟨(merge_strings_past_end ["url", "msg"]).1,
    (merge_strings_past_end ["url", "msg"]).2 5 (by decide)⟩

/-! ## Lemmas on `is_token_valid` -/

theorem len_webhookPrefix : (bytes webhookPrefix).length = 33 := by
  decide

theorem len_of_HasPrefix (url : String) (h : HasPrefix url webhookPrefix) : 33 ≤ len url := by
  have := List.IsPrefix.length_le h
  rw [len_webhookPrefix] at this
  exact this

theorem slice_short (url : String) (h : len url < 33) :
    slice url 0 33 = .panic "runtime error: slice bounds out of range" := by
  have h2 : ¬ (33 ≤ len url) := by omega
  simp [slice, h2]

theorem slice_long (url : String) (h : 33 ≤ len url) :
    slice url 0 33 = .ok ((bytes url).take 33) := by
  simp [slice, h]

theorem take_eq_webhookPrefix_iff (url : String) :
    (bytes url).take 33 = bytes webhookPrefix ↔ HasPrefix url webhookPrefix := by
  unfold HasPrefix
  rw [List.prefix_iff_eq_take, len_webhookPrefix]
  exact eq_comm

theorem is_token_valid_short (env : Env) (url : String) (h : len url < 33) :
    is_token_valid env url = ⟨[], .panic "runtime error: slice bounds out of range"⟩ := by
  simp [is_token_valid, slice_short url h, Run.lift, Run.bind]

theorem is_token_valid_other (env : Env) (url : String) (h : 33 ≤ len url)
    (hp : ¬ HasPrefix url webhookPrefix) :
    is_token_valid env url = ⟨[], .ok false⟩ := by
  have hne : ¬ ((bytes url).take 33 = bytes webhookPrefix) :=
    fun e => hp ((take_eq_webhookPrefix_iff url).1 e)
  simp [is_token_valid, slice_long url h, Run.lift, Run.bind, hne, pure]

theorem is_token_valid_probe (env : Env) (url : String) (hp : HasPrefix url webhookPrefix) :
    is_token_valid env url =
      ⟨[.get url],
        match (env.get url).resp with
        | none => .panic "runtime error: invalid memory address or nil pointer dereference"
        | some r => .ok (decide (r.StatusCode ≠ 401 ∨ (env.get url).err ≠ none))⟩ := by
  have he : (bytes url).take 33 = bytes webhookPrefix := (take_eq_webhookPrefix_iff url).2 hp
  have hl := len_of_HasPrefix url hp
  cases hr : (env.get url).resp with
  | none =>
    simp [is_token_valid, slice_long url hl, Run.lift, Run.bind, he, requests_Get, statusCode, hr]
  | some r =>
    by_cases hc : r.StatusCode ≠ 401 ∨ (env.get url).err ≠ none
    · simp [is_token_valid, slice_long url hl, Run.lift, Run.bind, he, requests_Get, statusCode,
        hr, hc, pure]
    · simp [is_token_valid, slice_long url hl, Run.lift, Run.bind, he, requests_Get, statusCode,
        hr, hc, pure]

theorem is_token_valid_refused (env : Env) (url : String) (h : Refused env url) :
    is_token_valid env url = ⟨probeOf url, .ok false⟩ := by
  obtain ⟨hl, hcase⟩ := h
  by_cases hp : HasPrefix url webhookPrefix
  · rcases hcase with hn | h401
    · exact absurd hp hn
    · rw [is_token_valid_probe env url hp, h401]
      simp [probeOf, hp]
  · rw [is_token_valid_other env url hl hp]
    simp [probeOf, hp]

theorem is_token_valid_true (env : Env) (url : String)
    (h : (is_token_valid env url).out = .ok true) :
    is_token_valid env url = ⟨[.get url], .ok true⟩ := by
  by_cases hl : 33 ≤ len url
  · by_cases hp : HasPrefix url webhookPrefix
    · rw [is_token_valid_probe env url hp] at h ⊢
      simp only at h
      rw [h]
    · rw [is_token_valid_other env url hl hp] at h
      simp at h
  · rw [is_token_valid_short env url (by omega)] at h
    simp at h

theorem HasPrefix_of_probe (env : Env) (url : String)
    (h : Event.get url ∈ (is_token_valid env url).trace) : HasPrefix url webhookPrefix := by
  by_contra hp
  by_cases hl : 33 ≤ len url
  · rw [is_token_valid_other env url hl hp] at h
    simp at h
  · rw [is_token_valid_short env url (by omega)] at h
    simp at h

theorem edit_flags_loop_empty (url : String) :
    edit_flags_loop "" url [""] = ⟨[], .ok ()⟩ := by
  have h : len "" = 0 := by decide
  simp [edit_flags_loop, h, pure, Run.lift]

/-! ## Claims about `is_token_valid` -/

/-- C1, at the failing inputs: on the empty string and on "http://x.y" (both shorter than
33 bytes, neither beginning with the webhook literal) `is_token_valid` does not return
false: the slice `url[0:33]` panics, before any probe is made. -/
theorem is_token_valid_short_url_panics (env : Env) :
    is_token_valid env "" = ⟨[], .panic "runtime error: slice bounds out of range"⟩ ∧
    is_token_valid env "http://x.y" =
      ⟨[], .panic "runtime error: slice bounds out of range"⟩ ∧
    ¬ HasPrefix "" webhookPrefix ∧ ¬ HasPrefix "http://x.y" webhookPrefix :=
  ⟨is_token_valid_short env "" (by decide), is_token_valid_short env "http://x.y" (by decide),
    by decide, by decide⟩

/-- C5: for every URL, whenever the probe GET performed by `is_token_valid` yields
status 401, `is_token_valid` returns false; the probe outcome is a response with its
status code together with an optional transport error, an error coming with no
response. -/
theorem is_token_valid_401 (env : Env) (url : String)
    (hget : GetContract (env.get url))
    (hprobe : Event.get url ∈ (is_token_valid env url).trace)
    (h401 : (env.get url).resp = some ⟨401⟩) :
    is_token_valid env url = ⟨[.get url], .ok false⟩ := by
  have hp := HasPrefix_of_probe env url hprobe
  have herr : (env.get url).err = none := by
    by_contra he
    have := hget he
    rw [h401] at this
    simp at this
  rw [is_token_valid_probe env url hp, h401]
  simp [herr]

theorem is_token_valid_401_witness :
    is_token_valid (envStatus 401) urlHook = ⟨[.get urlHook], .ok false⟩ :=
  is_token_valid_401 (envStatus 401) urlHook (fun h => absurd rfl h) (by decide) rfl

/-- C6, at the failing input: the URL begins with the webhook literal and the probe
fails with a transport error and no response; `is_token_valid` reads the status code
of the missing response and panics instead of returning true. -/
theorem is_token_valid_transport_error_panics :
    HasPrefix urlHook webhookPrefix ∧
    envDown.get urlHook = ⟨none, some "dial tcp: lookup discord.com: no such host"⟩ ∧
    is_token_valid envDown urlHook =
      ⟨[.get urlHook],
        .panic "runtime error: invalid memory address or nil pointer dereference"⟩ := by
  decide

/-! ## Claims about the commands -/

/-- C7, counterexample: given a URL with another beginning, the root command ends with
exit code 1 (through `log.Fatal`), not 0; and the edit command, having printed its
message, does not end there: it goes on and sends a PATCH request. -/
theorem invalid_url_not_exit_zero :
    (root_RunE (envStatus 200) executeNone [urlOther, "hi"]).out = .exit 1 ∧
    (root_RunE (envStatus 200) executeNone [urlOther, "hi"]).out ≠ .exit 0 ∧
    edit_Run (envStatus 200) "" [urlOther, "42", "hi"] =
      ⟨[.stdout "ERROR: 'http://example.com/not-a-discord-webhook' is not a valid webhook token.",
        .patch "http://example.com/not-a-discord-webhook/messages/42" "application/json"
          [("content", "hi")]],
        .ok ()⟩ := by
  decide

/-- C7 (amended): when the URL is refused (another beginning, or a 401 probe), the root
command writes its message through `ManageError` and the process ends with exit code 1,
no request having been sent by `request_HTTP` and `execute` not having run; and the edit
command prints its message. -/
theorem invalid_url_paths (env : Env) (execute : List String → Run (Option String))
    (message a0 a1 : String) (rest : List String) :
    (Refused env a0 →
      root_RunE env execute (a0 :: a1 :: rest) =
        ⟨probeOf a0 ++
          [.stderr (logLine (Sprintf_s_s (env.red "ERROR:")
            ("'" ++ a0 ++ "' not a valid webhook token")))],
          .exit 1⟩ ∧
      (root_RunE env execute (a0 :: a1 :: rest)).trace.filter isDispatch = []) ∧
    (Refused env (edit_url a0 a1) →
      Event.stdout ("ERROR: '" ++ a0 ++ "' is not a valid webhook token.") ∈
        (edit_Run env message (a0 :: a1 :: rest)).trace) := by
  constructor
  · intro h
    have hrun : root_RunE env execute (a0 :: a1 :: rest) =
        ⟨probeOf a0 ++
          [.stderr (logLine (Sprintf_s_s (env.red "ERROR:")
            ("'" ++ a0 ++ "' not a valid webhook token")))],
          .exit 1⟩ := by
      simp [root_RunE, index, Run.lift, Run.bind, is_token_valid_refused env a0 h, ManageError,
        log_Fatal]
    refine ⟨hrun, ?_⟩
    rw [hrun]
    by_cases hp : HasPrefix a0 webhookPrefix <;> simp [probeOf, hp, isDispatch]
  · intro h
    have hv := is_token_valid_refused env (edit_url a0 a1) h
    simp only [edit_Run, index, Run.lift, Run.bind]
    simp [hv, fmt_Printf, emit]

theorem invalid_url_paths_witness :
    (root_RunE (envStatus 401) executeNone [urlHook, "hi"] =
        ⟨probeOf urlHook ++
          [.stderr (logLine (Sprintf_s_s ((envStatus 401).red "ERROR:")
            ("'" ++ urlHook ++ "' not a valid webhook token")))],
          .exit 1⟩ ∧
      (root_RunE (envStatus 401) executeNone [urlHook, "hi"]).trace.filter isDispatch = []) ∧
    Event.stdout ("ERROR: '" ++ urlOther ++ "' is not a valid webhook token.") ∈
      (edit_Run (envStatus 401) "hi" [urlOther, "42"]).trace :=
  ⟨(invalid_url_paths (envStatus 401) executeNone "hi" urlHook "hi" []).1
      ⟨by decide, Or.inr rfl⟩,
    (invalid_url_paths (envStatus 401) executeNone "hi" urlOther "42" []).2
      ⟨by decide, Or.inl (by decide)⟩⟩

/-- C8, at the failing input: with the message flag set to "hi" and a webhook URL that
the probe accepts, the edit command sends two PATCH requests to the message URL, the
first with the flag as content and the second with the (here empty) merged arguments. -/
theorem edit_with_message_sends_two :
    edit_Run (envStatus 200) "hi" [urlHook, "42"] =
      ⟨[.get "https://discord.com/api/webhooks/1/x/messages/42",
        .patch "https://discord.com/api/webhooks/1/x/messages/42" "application/json"
          [("content", "hi")],
        .patch "https://discord.com/api/webhooks/1/x/messages/42" "application/json"
          [("content", "")]],
        .ok ()⟩ ∧
    ((edit_Run (envStatus 200) "hi" [urlHook, "42"]).trace.filter isDispatch).length = 2 := by
  decide

/-- C9, counterexample: with the message flag missing, the edit command prints no
"ERROR: Message flag required.", does not exit, and sends a PATCH request. -/
theorem edit_without_message_no_error :
    edit_Run (envStatus 200) "" [urlHook, "42", "new", "text"] =
      ⟨[.get "https://discord.com/api/webhooks/1/x/messages/42",
        .patch "https://discord.com/api/webhooks/1/x/messages/42" "application/json"
          [("content", "new text")]],
        .ok ()⟩ ∧
    Event.stdout "ERROR: Message flag required." ∉
      (edit_Run (envStatus 200) "" [urlHook, "42", "new", "text"]).trace ∧
    (edit_Run (envStatus 200) "" [urlHook, "42", "new", "text"]).out ≠ .exit 0 := by
  decide

/-- C9 (amended): in the edit command, when the message flag is missing (the message
variable is the empty string) and the check of the URL returns true, the command does
not print "ERROR: Message flag required." and does not exit: after the probe it sends
exactly one PATCH request to the message URL, whose content is the arguments from
index 2 on joined with single spaces and trimmed, and returns. -/
theorem edit_without_message (env : Env) (a0 a1 : String) (rest : List String)
    (hvalid : (is_token_valid env (edit_url a0 a1)).out = .ok true) :
    edit_Run env "" (a0 :: a1 :: rest) =
      ⟨[.get (edit_url a0 a1),
        .patch (edit_url a0 a1) "application/json" [("content", TrimSpace (Join rest " "))]],
        .ok ()⟩ ∧
    Event.stdout "ERROR: Message flag required." ∉ (edit_Run env "" (a0 :: a1 :: rest)).trace := by
  have hm : merge_strings (a0 :: a1 :: rest) 2 = .ok (TrimSpace (Join rest " ")) := by
    have := merge_strings_natCast (a0 :: a1 :: rest) 2 (by simp)
    simpa using this
  have hv := is_token_valid_true env (edit_url a0 a1) hvalid
  have hrun : edit_Run env "" (a0 :: a1 :: rest) =
      ⟨[.get (edit_url a0 a1),
        .patch (edit_url a0 a1) "application/json" [("content", TrimSpace (Join rest " "))]],
        .ok ()⟩ := by
    simp [edit_Run, index, Run.lift, Run.bind, hv, edit_flags_loop_empty, hm,
      request_HTTP, emit, pure]
  refine ⟨hrun, ?_⟩
  rw [hrun]
  simp

theorem edit_without_message_witness :
    (is_token_valid (envStatus 200) (edit_url urlHook "42")).out = .ok true ∧
    edit_Run (envStatus 200) "" [urlHook, "42", "new", "text"] =
      ⟨[.get (edit_url urlHook "42"),
        .patch (edit_url urlHook "42") "application/json"
          [("content", TrimSpace (Join ["new", "text"] " "))]],
        .ok ()⟩ ∧
    Event.stdout "ERROR: Message flag required." ∉
      (edit_Run (envStatus 200) "" [urlHook, "42", "new", "text"]).trace :=
  ⟨by decide,
    edit_without_message (envStatus 200) urlHook "42" ["new", "text"] (by decide)⟩

/-- C10: for every method other than "POST" and "PATCH", `request_HTTP` makes no HTTP
call; for "POST" it makes exactly one `Post` to the URL and for "PATCH" exactly one
`Patch` to the URL. -/
theorem request_HTTP_dispatch (http_method URL : String) (json_map : List (String × String)) :
    (http_method ≠ "POST" → http_method ≠ "PATCH" →
      request_HTTP http_method URL json_map = ⟨[], .ok ()⟩) ∧
    request_HTTP "POST" URL json_map = ⟨[.post URL "application/json" json_map], .ok ()⟩ ∧
    request_HTTP "PATCH" URL json_map = ⟨[.patch URL "application/json" json_map], .ok ()⟩ := by
  refine ⟨?_, ?_, ?_⟩
  · intro h1 h2
    simp [request_HTTP, h1, h2, pure, Run.lift]
  · simp [request_HTTP, emit]
  · have h : ¬ ("PATCH" = "POST") := by decide
    simp [request_HTTP, emit, h]

theorem request_HTTP_dispatch_witness :
    request_HTTP "GET" urlHook [("content", "hi")] = ⟨[], .ok ()⟩ ∧
    request_HTTP "DELETE" urlHook [("content", "hi")] = ⟨[], .ok ()⟩ ∧
    request_HTTP "post" urlHook [("content", "hi")] = ⟨[], .ok ()⟩ ∧
    request_HTTP "" urlHook [("content", "hi")] = ⟨[], .ok ()⟩ :=
  ⟨(request_HTTP_dispatch "GET" urlHook [("content", "hi")]).1 (by decide) (by decide),
    (request_HTTP_dispatch "DELETE" urlHook [("content", "hi")]).1 (by decide) (by decide),
    (request_HTTP_dispatch "post" urlHook [("content", "hi")]).1 (by decide) (by decide),
    (request_HTTP_dispatch "" urlHook [("content", "hi")]).1 (by decide) (by decide)⟩

end Dishook
